import Mathlib

/-!
Shallow embedding of the RustGin HTTP server core (src/src/lib.rs) and
verification of its specification claims.

Modelling conventions:
* Rust `String`/`&str` values are Lean `String`s; character-level operations
  (`split`, `chars().skip(1)`, `to_lowercase`) are modelled on the underlying
  `List Char` with structurally recursive helpers so that concrete instances
  evaluate in the kernel.
* `std::collections::HashMap` contents are modelled as association lists with
  the leftmost binding authoritative; `insert` overwrites in place, `get` is
  first-match lookup.  The map's iteration order is unspecified in Rust, so
  serialisation (which iterates the map) takes the enumeration order of the
  entries as an explicit parameter.
* `panic!` and `unwrap()` failures, which abort the process, are modelled as
  a distinguished outcome (`none` / `ParseOutcome.panicked`), clearly separate
  from ordinary `Option::None` returns.
* The TCP stream is modelled by its byte content as a `String` on the read
  side; on the write side, functions return the bytes that would be written.
-/

namespace RustGin

/-- Split a character list at every occurrence of `c`, mirroring Rust's
`str::split(c)`: always yields at least one (possibly empty) chunk, and
consecutive separators yield empty chunks. -/
def splitOnChar (c : Char) : List Char → List (List Char)
  | [] => [[]]
  | x :: xs =>
    if x = c then [] :: splitOnChar c xs
    else
      match splitOnChar c xs with
      | [] => [[x]]
      | y :: ys => (x :: y) :: ys

/-- ASCII lowering of one character, the fragment of Rust's Unicode
`char::to_lowercase` relevant to the ASCII inputs this server compares. -/
def lowerChar (c : Char) : Char :=
  if 'A' ≤ c ∧ c ≤ 'Z' then Char.ofNat (c.toNat + 32) else c

/-- Rust `str::to_lowercase` on ASCII text. -/
def toLowercase (s : String) : String :=
  String.mk (s.data.map lowerChar)

/-- UTF-8 byte size of one character, as Rust's `String::len` counts it. -/
def charUtf8Size (c : Char) : Nat :=
  if c.toNat < 0x80 then 1
  else if c.toNat < 0x800 then 2
  else if c.toNat < 0x10000 then 3
  else 4

/-- Rust `String::len`: the UTF-8 byte length of the string. -/
def utf8Len (s : String) : Nat :=
  (s.data.map charUtf8Size).sum

/-- `Vec::join("\n")` from the response serialisation. -/
def joinNewline : List String → String
  | [] => ""
  | [x] => x
  | x :: xs => x ++ "\n" ++ joinNewline xs

/-- `HashMap::get`: first-match lookup in the association-list model. -/
def mapGetP {κ α : Type} [DecidableEq κ] (m : List (κ × α)) (k : κ) : Option α :=
  match m with
  | [] => none
  | (k₀, v₀) :: rest => if k₀ = k then some v₀ else mapGetP rest k

/-- `HashMap::insert`: overwrite the binding of `k` if present, else append. -/
def mapInsertP {κ α : Type} [DecidableEq κ] (m : List (κ × α)) (k : κ) (v : α) :
    List (κ × α) :=
  match m with
  | [] => [(k, v)]
  | (k₀, v₀) :: rest => if k₀ = k then (k, v) :: rest else (k₀, v₀) :: mapInsertP rest k v

/-- `enum Method` (src/src/lib.rs:121-130). -/
inductive Method where
  | OPTIONS
  | GET
  | HEAD
  | POST
  | PUT
  | DELETE
  | TRACE
  | CONNECT
deriving DecidableEq

/-- `impl From\x3c&str\x3e for Method` (src/src/lib.rs:132-146): lowercase the
input and match it against the eight verb tokens.  The catch-all arm in the
source is `panic!`, which aborts the process; it is modelled as `none`. -/
def Method.fromString (value : String) : Option Method :=
  match toLowercase value with
  | "options" => some .OPTIONS
  | "get" => some .GET
  | "head" => some .HEAD
  | "post" => some .POST
  | "put" => some .PUT
  | "delete" => some .DELETE
  | "trace" => some .TRACE
  | "connect" => some .CONNECT
  | _ => none

/-- `impl Display for Method` (src/src/lib.rs:148-163). -/
def Method.fmt : Method → String
  | .OPTIONS => "OPTIONS"
  | .GET => "GET"
  | .HEAD => "HEAD"
  | .POST => "POST"
  | .PUT => "PUT"
  | .DELETE => "DELETE"
  | .TRACE => "TRACE"
  | .CONNECT => "CONNECT"

/-- `enum Status` (src/src/lib.rs:58-62). -/
inductive Status where
  | Ok
  | NotFound
  | SwitchingProtocols
deriving DecidableEq

/-- `impl Display for Status` (src/src/lib.rs:64-73). -/
def Status.fmt : Status → String
  | .Ok => "200 OK"
  | .NotFound => "404 NOT FOUND"
  | .SwitchingProtocols => "101 Switching Protocols"

/-- `struct HTTPResponse` (src/src/lib.rs:75-80); the `headers` HashMap is
modelled as an association list of its bindings. -/
structure HTTPResponse where
  protocol : String
  status : Status
  data : String
  headers : List (String × String)
deriving DecidableEq

/-- `HTTPResponse::new` (src/src/lib.rs:103-110). -/
def HTTPResponse.new (status : Status) (data : String) : HTTPResponse :=
  { protocol := "HTTP/1.1", status := status, data := data, headers := [] }

/-- `HTTPResponse::add_header` (src/src/lib.rs:112-117): insert only when the
key is not already present. -/
def HTTPResponse.add_header (r : HTTPResponse) (key value : String) : HTTPResponse :=
  match mapGetP r.headers key with
  | some _ => r
  | none => { r with headers := mapInsertP r.headers key value }

/-- `impl Display for HTTPResponse` (src/src/lib.rs:82-100).  The source
iterates `self.headers` in the HashMap's unspecified iteration order, so this
takes the enumeration order of the entries as the parameter `entries`
(a permutation of `r.headers`); the rest of the format string is positional:
`"\x7b\x7d \x7b\x7d\r\nContent-Length: \x7b\x7d\r\n\x7b\x7d\r\n\x7b\x7d"`. -/
def HTTPResponse.fmtWith (r : HTTPResponse) (entries : List (String × String)) : String :=
  let headers := joinNewline (entries.map (fun kv => kv.1 ++ ": " ++ kv.2))
  r.protocol ++ " " ++ r.status.fmt ++ "\r\nContent-Length: " ++
    Nat.repr (utf8Len r.data) ++ "\r\n" ++ headers ++ "\r\n" ++ r.data

/-- `struct HTTPRequest` (src/src/lib.rs:179-184): method, url and the parsed
header map.  The retained `stream: TcpStream` handle is not part of the pure
parse result; the bytes written through it are returned by `send` below.
Note the struct has no body field: the parser never captures a body. -/
structure HTTPRequest where
  method : Method
  url : String
  headers : List (String × String)
deriving DecidableEq

/-- Outcome of `HTTPRequest::new`: `panicked` models an aborting `unwrap()` or
`Method::from` panic, `empty` models the `None` return for a line-less stream,
`request` is the `Some` case. -/
inductive ParseOutcome where
  | panicked
  | empty
  | request : HTTPRequest → ParseOutcome
deriving DecidableEq

/-- `BufReader::lines()` followed by `take_while(|line| !line.is_empty())`
(src/src/lib.rs:188-193): split the stream bytes at `'\n'`, strip one
trailing `'\r'` from each line, and keep the prefix of non-empty lines. -/
def requestLines (input : String) : List String :=
  ((splitOnChar '\n' input.data).map
      (fun l => String.mk (if l.getLast? = some '\r' then l.dropLast else l))).takeWhile
    (fun l => l != "")

/-- One header line (src/src/lib.rs:203-205): `split(':')`, key is the first
chunk, value is the second chunk with its first character skipped.  A line
with no `':'` makes the second `unwrap()` panic: `none`.  Chunks after the
second are discarded. -/
def parseHeaderLine (line : String) : Option (String × String) :=
  match splitOnChar ':' line.data with
  | key :: value :: _ => some (String.mk key, String.mk (value.drop 1))
  | _ => none

/-- The header loop (src/src/lib.rs:202-207): fold the remaining lines into
the HashMap with `insert` (duplicate keys keep the last-seen value). -/
def parseHeadersLoop : List String → List (String × String) → Option (List (String × String))
  | [], acc => some acc
  | line :: rest, acc =>
    match parseHeaderLine line with
    | none => none
    | some (k, v) => parseHeadersLoop rest (mapInsertP acc k v)

/-- `HTTPRequest::new` (src/src/lib.rs:187-217): collect the non-empty line
prefix; if empty, return `None`; else split the request line on `' '`, take
the method (panicking on an unknown token) and the endpoint (panicking when
missing), then parse every further line as a header.  No body is ever read:
parsing stops at the first empty line. -/
def HTTPRequest.new (input : String) : ParseOutcome :=
  match requestLines input with
  | [] => ParseOutcome.empty
  | requestLine :: rest =>
    match splitOnChar ' ' requestLine.data with
    | mtok :: endpoint :: _ =>
      match Method.fromString (String.mk mtok) with
      | none => ParseOutcome.panicked
      | some method =>
        match parseHeadersLoop rest [] with
        | none => ParseOutcome.panicked
        | some headers =>
          ParseOutcome.request
            { method := method, url := String.mk endpoint, headers := headers }
    | _ => ParseOutcome.panicked

/-- `HTTPRequest::send` (src/src/lib.rs:219-223): build
`HTTPResponse::new(Status::Ok, text)` — the status is always `Ok` — and write
its `Display` rendering to the stream.  The fresh response's header map is
empty, so its only enumeration is `[]`; the returned string is the bytes
written. -/
def HTTPRequest.send (_req : HTTPRequest) (text : String) : String :=
  (HTTPResponse.new Status.Ok text).fmtWith []

/-- Handler type `fn(HTTPRequest) -> Result\x3c(), Box\x3cdyn Error\x3e\x3e`
(src/src/lib.rs:10). -/
def Handler := HTTPRequest → Except String Unit

/-- `struct HttpServer` (src/src/lib.rs:12-15): the routing HashMap keyed by
`(String, Method)`, modelled as an association list. -/
structure HttpServer where
  port : Int
  functions : List ((String × Method) × Handler)

/-- `HttpServer::new` (src/src/lib.rs:18-23). -/
def HttpServer.new (port : Int) : HttpServer :=
  { port := port, functions := [] }

/-- `HttpServer::get` (src/src/lib.rs:25-27). -/
def HttpServer.get (s : HttpServer) (url : String) (func : Handler) : HttpServer :=
  { s with functions := mapInsertP s.functions (url, Method.GET) func }

/-- `HttpServer::post` (src/src/lib.rs:29-31). -/
def HttpServer.post (s : HttpServer) (url : String) (func : Handler) : HttpServer :=
  { s with functions := mapInsertP s.functions (url, Method.POST) func }

/-- `HttpServer::add_method` (src/src/lib.rs:33-35). -/
def HttpServer.add_method (s : HttpServer) (method : Method) (url : String)
    (func : Handler) : HttpServer :=
  { s with functions := mapInsertP s.functions (url, method) func }

/-- The routing lookup `self.functions.get(&(url, method))`
(src/src/lib.rs:46). -/
def HttpServer.lookup (s : HttpServer) (url : String) (method : Method) : Option Handler :=
  mapGetP s.functions (url, method)

/-- One incoming item of `listener.incoming()`: either the accept step yields
an I/O error (`stream?` fails) or a connection is accepted, carrying the bytes
readable from it and whether a `write_all` on it would succeed. -/
inductive ConnEvent where
  | acceptErr (msg : String)
  | conn (input : String) (writeOk : Bool)

/-- How a run of the `listen` loop ends, with the fallback responses it wrote
(in order).  `finished` models the incoming sequence being exhausted,
`ioError` a `?`-propagated `Err` return from `listen`, `panicked` a process
abort inside request parsing. -/
inductive LoopResult where
  | finished (outputs : List String)
  | ioError (msg : String) (outputs : List String)
  | panicked (outputs : List String)
deriving DecidableEq

/-- The body of the `for stream in listener.incoming()` loop in
`HttpServer::listen` (src/src/lib.rs:40-53), one event at a time:
`stream?` propagates accept errors; a `None` parse is skipped; a looked-up
handler is invoked and its error propagated by `f(request)?`; on a lookup
miss `request.send("404")?` writes the fallback bytes, its write error also
propagated. -/
def HttpServer.listenLoop (s : HttpServer) :
    List ConnEvent → List String → LoopResult
  | [], outputs => LoopResult.finished outputs.reverse
  | ConnEvent.acceptErr msg :: _, outputs => LoopResult.ioError msg outputs.reverse
  | ConnEvent.conn input writeOk :: rest, outputs =>
    match HTTPRequest.new input with
    | ParseOutcome.panicked => LoopResult.panicked outputs.reverse
    | ParseOutcome.empty => s.listenLoop rest outputs
    | ParseOutcome.request req =>
      match s.lookup req.url req.method with
      | some f =>
        match f req with
        | Except.ok _ => s.listenLoop rest outputs
        | Except.error e => LoopResult.ioError e outputs.reverse
      | none =>
        if writeOk then s.listenLoop rest (req.send "404" :: outputs)
        else LoopResult.ioError "write failed" outputs.reverse

/-- `HttpServer::listen` (src/src/lib.rs:37-55) over a finite incoming
sequence of events. -/
def HttpServer.listen (s : HttpServer) (events : List ConnEvent) : LoopResult :=
  s.listenLoop events []

end RustGin

namespace RustGin

/-- Lookup after insert of the same key yields the inserted value. -/
theorem mapGetP_insert_self {κ α : Type} [DecidableEq κ] (m : List (κ × α)) (k : κ)
    (v : α) : mapGetP (mapInsertP m k v) k = some v := by
  induction m with
  | nil => simp [mapInsertP, mapGetP]
  | cons p rest ih =>
    obtain ⟨k₀, v₀⟩ := p
    by_cases h : k₀ = k
    · simp [mapInsertP, mapGetP, h]
    · simp [mapInsertP, mapGetP, h, ih]

/-- C1: the claim fails on the code.  `HTTPRequest::new` stops reading at the
first empty line and the request struct has no body field, so for the request
`"POST /x HTTP/1.1\r\ncontent-length: 5\r\n\r\nhello"` — whose header block
declares `content-length: 5` and whose stream carries the 5 bytes `hello` —
the parse result records only method, url and headers, and is identical to
the parse of the same request with the 5 body bytes removed: the body is
never read. -/
theorem c1_parser_never_reads_body :
    HTTPRequest.new "POST /x HTTP/1.1\r\ncontent-length: 5\r\n\r\nhello" =
      ParseOutcome.request
        { method := .POST, url := "/x", headers := [("content-length", "5")] } ∧
    HTTPRequest.new "POST /x HTTP/1.1\r\ncontent-length: 5\r\n\r\nhello" =
      HTTPRequest.new "POST /x HTTP/1.1\r\ncontent-length: 5\r\n\r\n" := by
  decide

/-- C2: the claim fails on the code.  For the header line
`"Host: localhost:5000"` (the example in the source's own comment block) the
parser stores the key `"Host"` unlowercased and the value `"localhost"` —
`split(':')` cuts the value at the second colon, so `":5000"` is lost —
instead of the claimed `"host" -> "localhost:5000"`.  Only the duplicate-key
part of the claim holds: a repeated key keeps the last-seen value. -/
theorem c2_header_key_not_lowered_value_truncated :
    HTTPRequest.new "GET / HTTP/1.1\r\nHost: localhost:5000\r\n\r\n" =
      ParseOutcome.request
        { method := .GET, url := "/", headers := [("Host", "localhost")] } ∧
    HTTPRequest.new "GET / HTTP/1.1\r\nA: 1\r\nA: 2\r\n\r\n" =
      ParseOutcome.request { method := .GET, url := "/", headers := [("A", "2")] } := by
  decide

/-- C3: the case-insensitive half of the claim holds — `"get"`, `"GET"` and
`"Get"` all convert to the GET variant — but the error half fails on the
code: for `"fetch"` the conversion hits the `panic!` arm (modelled `none`),
aborting the process instead of returning an `UnknownMethod` parse error. -/
theorem c3_method_case_insensitive_but_unknown_panics :
    Method.fromString "get" = some .GET ∧
    Method.fromString "GET" = some .GET ∧
    Method.fromString "Get" = some .GET ∧
    Method.fromString "fetch" = none := by
  decide

/-- C4: the claim fails on the code.  Serving
`"GET /hello HTTP/1.1\r\nHost: x\r\n\r\n"` with no handler registered, the
loop calls `request.send("404")`, and `send` always builds its response with
`Status::Ok`: the bytes written are
`"HTTP/1.1 200 OK\r\nContent-Length: 3\r\n\r\n404"` — body `"404"` but status
line `200 OK`, not the claimed `"404 NOT FOUND"`. -/
theorem c4_fallback_has_status_200 :
    (HttpServer.new 80).listen [ConnEvent.conn "GET /hello HTTP/1.1\r\nHost: x\r\n\r\n" true] =
      LoopResult.finished ["HTTP/1.1 200 OK\r\nContent-Length: 3\r\n\r\n404"] := by
  decide

/-- C5: the claim fails on the code.  With a handler for (GET, "/a") that
returns an error, serving that connection makes `f(request)?` propagate the
error out of `listen`: the loop terminates with the handler's error and the
second pending connection — which on its own would be served with the 404
fallback — is never accepted (no output is written for it). -/
theorem c5_handler_error_terminates_loop :
    ((HttpServer.new 80).get "/a" (fun _ => Except.error "boom")).listen
        [ConnEvent.conn "GET /a HTTP/1.1\r\n\r\n" true,
         ConnEvent.conn "GET /b HTTP/1.1\r\n\r\n" true] =
      LoopResult.ioError "boom" [] ∧
    ((HttpServer.new 80).get "/a" (fun _ => Except.error "boom")).listen
        [ConnEvent.conn "GET /b HTTP/1.1\r\n\r\n" true] =
      LoopResult.finished ["HTTP/1.1 200 OK\r\nContent-Length: 3\r\n\r\n404"] := by
  decide

/-- C6: confirmed.  For every response `r`, every `add_header` call (any key,
including `"Content-Length"`, and any value) and every enumeration order of
the header map, the serialisation starts with the status line followed by
`Content-Length: L` where `L` is the UTF-8 byte length of the body: the
emitted `Content-Length` is computed from the body, unaffected by
`add_header`. -/
theorem c6_content_length_derived_from_body (r : HTTPResponse) (k v : String)
    (entries : List (String × String)) :
    ∃ rest, (r.add_header k v).fmtWith entries =
      r.protocol ++ " " ++ r.status.fmt ++ "\r\nContent-Length: " ++
        Nat.repr (utf8Len r.data) ++ "\r\n" ++ rest := by
  cases hk : mapGetP r.headers k with
  | some w =>
    refine ⟨joinNewline (entries.map (fun kv => kv.1 ++ ": " ++ kv.2)) ++ "\r\n" ++
      r.data, ?_⟩
    simp [HTTPResponse.add_header, hk, HTTPResponse.fmtWith, String.append_assoc]
  | none =>
    refine ⟨joinNewline (entries.map (fun kv => kv.1 ++ ": " ++ kv.2)) ++ "\r\n" ++
      r.data, ?_⟩
    simp [HTTPResponse.add_header, hk, HTTPResponse.fmtWith, String.append_assoc]

/-- C7: the claim fails on the code.  The serialisation iterates the header
HashMap in its unspecified iteration order; for the response built by
`new(Ok, "")`, `add_header("A", "1")`, `add_header("B", "2")`, the order
`[("B", "2"), ("A", "1")]` is a permutation of the map's entries — hence a
possible HashMap iteration order — and serialising with it yields different
bytes than the insertion order: the bytes are not determined by the
construction sequence. -/
theorem c7_serialisation_order_dependent :
    List.Perm (((HTTPResponse.new Status.Ok "").add_header "A" "1").add_header "B" "2").headers
      [("B", "2"), ("A", "1")] ∧
    (((HTTPResponse.new Status.Ok "").add_header "A" "1").add_header "B" "2").fmtWith
        (((HTTPResponse.new Status.Ok "").add_header "A" "1").add_header "B" "2").headers ≠
      (((HTTPResponse.new Status.Ok "").add_header "A" "1").add_header "B" "2").fmtWith
        [("B", "2"), ("A", "1")] := by
  decide

/-- C8: confirmed.  `add_header` is first-write-wins: a second call with the
same key (any second value) leaves the response unchanged, because after the
first call the key is present and `add_header` returns without inserting. -/
theorem c8_add_header_first_write_wins (r : HTTPResponse) (k v₁ v₂ : String) :
    (r.add_header k v₁).add_header k v₂ = r.add_header k v₁ := by
  cases hk : mapGetP r.headers k with
  | some w =>
    have h1 : r.add_header k v₁ = r := by simp [HTTPResponse.add_header, hk]
    rw [h1]
    simp [HTTPResponse.add_header, hk]
  | none =>
    have h1 : r.add_header k v₁ = { r with headers := mapInsertP r.headers k v₁ } := by
      simp [HTTPResponse.add_header, hk]
    rw [h1]
    simp [HTTPResponse.add_header, mapGetP_insert_self]

/-- C9: confirmed.  Routing is exact-match only: after registering a handler
for (GET, "/a"), looking up (POST, "/a") and (GET, "/b") both miss (the 404
fallback path), while (GET, "/a") yields the registered handler. -/
theorem c9_routing_exact_match (h : Handler) :
    ((HttpServer.new 80).get "/a" h).lookup "/a" Method.POST = none ∧
    ((HttpServer.new 80).get "/a" h).lookup "/b" Method.GET = none ∧
    ((HttpServer.new 80).get "/a" h).lookup "/a" Method.GET = some h := by
  refine ⟨?_, ?_, rfl⟩ <;>
    simp [HttpServer.lookup, HttpServer.get, HttpServer.new, mapGetP, mapInsertP]

/-- C10: confirmed.  For every server state, url and handler, `get` inserts
exactly what `add_method` with `Method::GET` inserts, and `post` exactly what
`add_method` with `Method::POST` inserts. -/
theorem c10_get_post_equal_add_method (s : HttpServer) (url : String) (f : Handler) :
    s.get url f = s.add_method Method.GET url f ∧
    s.post url f = s.add_method Method.POST url f :=
  ⟨rfl, rfl⟩

end RustGin
